import Mathlib

/-!
Shallow embedding of `src/analysis.py` (the Mirsky-ratio analysis script).

Python floats are modelled as `PyNum`: either an exact rational or NaN
(the script performs only field operations on fetched data, so rationals
suffice; NaN must be tracked because pandas data routinely contains it and
`dropna` filters on it).  Python-level values fed to `extract_scalar`
(floats, `pd.Series`, strings, `None`) are modelled by `PyVal`.  Fallible
operations (`float(...)`, division) return `Option`/`Except`; the
per-ticker `try/except` of the script is the `Except` handler in
`processTicker`.
-/

/-- Model of a Python float: an exact rational or NaN. -/
inductive PyNum where
  | real (q : ℚ)
  | nan
deriving DecidableEq, Repr

/-- Model of the heterogeneous values the script hands to `extract_scalar`:
a number, a `pd.Series` (ordered sequence of values), a string (carrying
the result of `float(s)`: `some` a number if convertible, `none` if
`float` raises `ValueError`), or Python `None`. -/
inductive PyVal where
  | num (n : PyNum)
  | series (xs : List PyVal)
  | str (parsed : Option PyNum)
  | pynone
deriving Repr

/-- Model of the Python builtin `float(value)` on a `PyVal`: `none` means the
call raises (`ValueError` on an unconvertible string, `TypeError` on `None`
or on a `Series`). -/
def pyFloat : PyVal → Option PyNum
  | .num n => some n
  | .str parsed => parsed
  | .pynone => none
  | .series _ => none

/-- Embedding of `extract_scalar` (analysis.py lines 23-33): if the value is a
`pd.Series`, replace it by its first element (`iloc[0]`, raising
`IndexError` on an empty series); then `float(value)`; any
`ValueError`/`TypeError`/`IndexError` is caught and `0.0` returned. -/
def extract_scalar (value : PyVal) : PyNum :=
  match value with
  | .series [] => .real 0
  | .series (x :: _) => (pyFloat x).getD (.real 0)
  | v => (pyFloat v).getD (.real 0)

/-- Python float subtraction; NaN propagates. -/
def pySub : PyNum → PyNum → PyNum
  | .real a, .real b => .real (a - b)
  | _, _ => .nan

/-- Python float multiplication; NaN propagates. -/
def pyMul : PyNum → PyNum → PyNum
  | .real a, .real b => .real (a * b)
  | _, _ => .nan

/-- Python float division: raises `ZeroDivisionError` when the divisor is
exactly `0.0`; otherwise NaN propagates. -/
def pyDiv (a b : PyNum) : Except String PyNum :=
  match b with
  | .real q =>
      if q = 0 then .error "ZeroDivisionError"
      else match a with
           | .real p => .ok (.real (p / q))
           | .nan => .ok .nan
  | .nan => .ok .nan

/-- Total companion of `pyDiv`, used to state results of divisions whose
divisor is known to be nonzero. -/
def pyDivTotal : PyNum → PyNum → PyNum
  | .real p, .real q => .real (p / q)
  | _, _ => .nan

/-- Python comparison `x > 0`: false on NaN. -/
def PyNum.gtZero : PyNum → Bool
  | .real q => decide (0 < q)
  | .nan => false

/-- Python comparison `x == 0`: false on NaN. -/
def PyNum.eqZero : PyNum → Bool
  | .real q => decide (q = 0)
  | .nan => false

/-- Check whether a value is NaN (what `dropna` tests per field). -/
def PyNum.isNan : PyNum → Bool
  | .nan => true
  | .real _ => false

/-- Embedding of line 71 of analysis.py:
`((end_price - start_price) / start_price) * 100 if start_price > 0 else 0`.
The guard `start_price > 0` forces the divisor nonzero, so the total
division is used; `computeGrowthE_ok` below proves this agrees with the
raising division. -/
def computeGrowth (start_price end_price : PyNum) : PyNum :=
  if start_price.gtZero then
    pyMul (pyDivTotal (pySub end_price start_price) start_price) (.real 100)
  else .real 0

/-- Raising version of the growth expression, with Python division
semantics (`pyDiv`); used to show the `else 0` guard makes the
`ZeroDivisionError` branch unreachable. -/
def computeGrowthE (start_price end_price : PyNum) : Except String PyNum :=
  if start_price.gtZero then do
    let d ← pyDiv (pySub end_price start_price) start_price
    pure (pyMul d (.real 100))
  else pure (.real 0)

/-- Model of the `stock.financials` DataFrame: the index entries (line-item
names) with, for each, its row across reported periods (a `pd.Series`).
`DataFrame.empty` is modelled as having no rows; `.loc[name]` returns the
first row with that name (the yfinance statement index has unique names). -/
structure Financials where
  rows : List (String × List PyVal)

/-- Model of `financials.empty`. -/
def Financials.isEmpty (f : Financials) : Bool := f.rows.isEmpty

/-- Model of `name in financials.index`. -/
def Financials.hasIndex (f : Financials) (name : String) : Bool :=
  f.rows.any (fun r => r.1 == name)

/-- Model of `financials.loc[name]` (the row, a `pd.Series`). -/
def Financials.loc (f : Financials) (name : String) : List PyVal :=
  ((f.rows.find? (fun r => r.1 == name)).map (fun r => r.2)).getD []

/-- Per-ticker input: the ticker symbol together with the outcomes of the
two provider fetches.  `hist` is the `Close` column of
`stock.history(period="1y")`; `financials` is `stock.financials`.  An
`Except.error` value models the fetch raising an exception. -/
structure TickerInput where
  ticker : String
  hist : Except String (List PyVal)
  financials : Except String Financials

/-- An accepted record, as appended to `results` (analysis.py lines 89-95). -/
structure Record where
  ticker : String
  mirsky_ratio : PyNum
  market_growth : PyNum
  rnd : PyNum
  sga : PyNum
deriving DecidableEq, Repr

/-- Model of `pd.DataFrame(results).dropna()` applied per row: a row is
dropped iff any of its numeric fields is NaN (`Ticker` is a string and is
never missing). -/
def Record.hasNaN (r : Record) : Bool :=
  r.mirsky_ratio.isNan || r.market_growth.isNan || r.rnd.isNan || r.sga.isNan

/-- Outcome of one iteration of the per-ticker loop: an accepted record,
one of the three skip reasons printed by the script, or a caught
exception (the `except` branch at lines 98-100). -/
inductive Outcome where
  | ok (r : Record)
  | skipPrice
  | skipFinancials
  | skipSga
  | error (msg : String)
deriving DecidableEq, Repr

/-- Body of the per-ticker `try` block (analysis.py lines 60-96), with
exceptions as `Except.error`.  The statement order matches the source:
price history first (skip on fewer than 2 rows), growth computation,
financials fetch (skip on empty frame or missing line item), scalar
extraction, the zero-SG&A guard, then the ratio division.  `headD`/
`getLastD` model `iloc[0]`/`iloc[-1]`; their defaults are dead code since
the list is guaranteed nonempty by the length guard. -/
def processTickerE (inp : TickerInput) : Except String Outcome :=
  inp.hist.bind fun hist =>
  if hist.length < 2 then .ok .skipPrice
  else
    let start_price := extract_scalar (hist.headD .pynone)
    let end_price := extract_scalar (hist.getLastD .pynone)
    (computeGrowthE start_price end_price).bind fun market_growth =>
    inp.financials.bind fun financials =>
    if financials.isEmpty
        || !(financials.hasIndex "Research And Development")
        || !(financials.hasIndex "Selling General And Administration") then
      .ok .skipFinancials
    else
      let rnd := extract_scalar (.series (financials.loc "Research And Development"))
      let sga := extract_scalar (.series (financials.loc "Selling General And Administration"))
      if sga.eqZero then .ok .skipSga
      else
        (pyDiv rnd sga).bind fun mirsky_ratio =>
        .ok (.ok { ticker := inp.ticker, mirsky_ratio := mirsky_ratio,
                   market_growth := market_growth, rnd := rnd, sga := sga })

/-- One iteration of the loop including its `except Exception` handler: a
raised exception is caught and becomes an `Outcome.error` (logged and
skipped), never a crash of the run. -/
def processTicker (inp : TickerInput) : Outcome :=
  match processTickerE inp with
  | .ok o => o
  | .error e => .error e

/-- The `results` list accumulated by the loop: the accepted records, in
processing order. -/
def acceptedRecords (inputs : List TickerInput) : List Record :=
  inputs.filterMap fun inp =>
    match processTicker inp with
    | .ok r => some r
    | _ => none

/-- Sort key for `sort_values(by="Mirsky_Ratio")`.  After `dropna` every
ratio is a real number; the NaN case of this projection is dead code. -/
def ratioKey (r : Record) : ℚ :=
  match r.mirsky_ratio with
  | .real q => q
  | .nan => 0

/-- Model of `df.sort_values(by="Mirsky_Ratio", ascending=False)` (line
108).  The source uses the pandas default `kind="quicksort"`, which is
not a stable sort, so the source determines the output only up to the
relative order of rows with equal ratios; this model realises one
admissible outcome with a merge sort under the reversed key order.  The
theorems below rely only on facts that are invariant under the order of
tied keys — row count and row membership — and therefore hold of the
program regardless of which tie order numpy's quicksort produces. -/
def sortValuesDesc (l : List Record) : List Record :=
  l.mergeSort (fun a b => decide (ratioKey b ≤ ratioKey a))

/-- Columns handed to `pearsonr` (ratio and growth) with the sample size
printed alongside the statistic. -/
structure StatInput where
  n : Nat
  pairs : List (PyNum × PyNum)
deriving DecidableEq, Repr

/-- Observable result of the final-analysis section (lines 102-125):
whether the no-data early return was taken, the rows written to the CSV
(in file order) if it was written, and the input of the statistical test
if it was performed. -/
structure RunReport where
  noData : Bool
  csv : Option (List Record)
  stats : Option StatInput
deriving DecidableEq, Repr

/-- Embedding of `run_analysis` (lines 54-125) given the per-ticker inputs:
run the loop, early-return on an empty `results`, `dropna`, sort
descending by ratio, write the CSV, and run `pearsonr` only when more
than 2 rows remain. -/
def run_analysis (inputs : List TickerInput) : RunReport :=
  let results := acceptedRecords inputs
  if results.isEmpty then
    { noData := true, csv := none, stats := none }
  else
    let df := sortValuesDesc (results.filter fun r => !r.hasNaN)
    { noData := false
      csv := some df
      stats :=
        if df.length > 2 then
          some { n := df.length, pairs := df.map fun r => (r.mirsky_ratio, r.market_growth) }
        else none }

/-- The static ticker universe (analysis.py lines 40-50). -/
def sp100_tickers : List String :=
  ["AAPL", "MSFT", "GOOG", "AMZN", "NVDA", "META", "TSLA", "BRK-B", "LLY", "V", "JPM", "XOM",
   "WMT", "UNH", "MA", "PG", "JNJ", "MRK", "HD", "COST", "AVGO", "ORCL", "CVX", "CRM", "PEP",
   "KO", "ABBV", "ADBE", "BAC", "MCD", "CSCO", "ACN", "TMO", "PFE", "LIN", "NFLX", "ABT",
   "AMD", "DIS", "WFC", "CMCSA", "INTC", "VZ", "DHR", "NEE", "PM", "UPS", "TXN", "RTX",
   "HON", "AMGN", "UNP", "LOW", "COP", "IBM", "PLD", "SPGI", "CAT", "GS", "SBUX", "DE",
   "BLK", "ISRG", "LMT", "GE", "MDLZ", "BA", "TJX", "T", "AXP", "AMT", "C", "NOW", "PYPL",
   "SCHW", "ZTS", "ADI", "CVS", "DUK", "EOG", "SO", "MMC", "PNC", "TGT", "BDX", "GILD",
   "MO", "USB", "ADP", "CI", "CSX", "FISV", "GM", "HCA", "ITW", "KMB", "MD", "MMM", "PGR",
   "SHW", "SYK", "ANTM"]

/-- The whole script run against a data provider: each ticker of the static
universe is paired with its two fetch results and processed in list
order. -/
def run_analysis_main (priceHistory : String → Except String (List PyVal))
    (financialsOf : String → Except String Financials) : RunReport :=
  run_analysis (sp100_tickers.map fun t =>
    { ticker := t, hist := priceHistory t, financials := financialsOf t })

/-! Helper definitions and lemmas shared by the claim theorems. -/

/-- Closed form of the per-ticker pipeline when both fetches succeed:
no exception can then be raised inside the body, so the `Except` layer
disappears (established by `processTicker_okFetch`). -/
def processTickerPure (t : String) (h : List PyVal) (f : Financials) : Outcome :=
  if h.length < 2 then .skipPrice
  else
    let start_price := extract_scalar (h.headD .pynone)
    let end_price := extract_scalar (h.getLastD .pynone)
    let market_growth := computeGrowth start_price end_price
    if f.isEmpty
        || !(f.hasIndex "Research And Development")
        || !(f.hasIndex "Selling General And Administration") then
      .skipFinancials
    else
      let rnd := extract_scalar (.series (f.loc "Research And Development"))
      let sga := extract_scalar (.series (f.loc "Selling General And Administration"))
      if sga.eqZero then .skipSga
      else .ok { ticker := t, mirsky_ratio := pyDivTotal rnd sga,
                 market_growth := market_growth, rnd := rnd, sga := sga }

/-- The rejection condition of the financial-statement check (line 75):
empty frame, or either required line item absent from the index. -/
def finMissing (f : Financials) : Bool :=
  f.isEmpty
    || !(f.hasIndex "Research And Development")
    || !(f.hasIndex "Selling General And Administration")

/-- The extracted R&D scalar (line 80). -/
def finRnd (f : Financials) : PyNum :=
  extract_scalar (.series (f.loc "Research And Development"))

/-- The extracted SG&A scalar (line 81). -/
def finSga (f : Financials) : PyNum :=
  extract_scalar (.series (f.loc "Selling General And Administration"))

/-- The growth value computed from a price history (lines 69-71). -/
def histGrowth (h : List PyVal) : PyNum :=
  computeGrowth (extract_scalar (h.headD .pynone)) (extract_scalar (h.getLastD .pynone))

/-- The record emitted for an accepted ticker (lines 87-95). -/
def mkRecord (t : String) (h : List PyVal) (f : Financials) : Record :=
  { ticker := t, mirsky_ratio := pyDivTotal (finRnd f) (finSga f),
    market_growth := histGrowth h, rnd := finRnd f, sga := finSga f }

/-- Test fixture: a ticker input with a two-point price history and a
financial statement holding single-period R&D and SG&A values. -/
def mkInput (t : String) (startp endp rnd sga : ℚ) : TickerInput :=
  { ticker := t,
    hist := .ok [.num (.real startp), .num (.real endp)],
    financials := .ok
      { rows := [("Research And Development", [.num (.real rnd)]),
                 ("Selling General And Administration", [.num (.real sga)])] } }

/-- Test fixture: a ticker whose statement reports NaN for both line items
(the items are present in the index, so the presence check passes). -/
def nanInput (t : String) : TickerInput :=
  { ticker := t,
    hist := .ok [.num (.real 100), .num (.real 120)],
    financials := .ok
      { rows := [("Research And Development", [.num .nan]),
                 ("Selling General And Administration", [.num .nan])] } }

/-- Test fixture: a statement with R&D 50 and SG&A 200. -/
def goodFin : Financials :=
  { rows := [("Research And Development", [.num (.real 50)]),
             ("Selling General And Administration", [.num (.real 200)])] }

/-- Test fixture: the record produced for `mkInput "A" 100 120 50 200`. -/
def recA : Record :=
  { ticker := "A", mirsky_ratio := .real (50 / 200),
    market_growth := computeGrowth (.real 100) (.real 120),
    rnd := .real 50, sga := .real 200 }

theorem pyDiv_ok (a : PyNum) {b : PyNum} (hb : b.eqZero = false) :
    pyDiv a b = .ok (pyDivTotal a b) := by
  cases b with
  | nan => cases a <;> rfl
  | real q =>
      have hq : ¬ q = 0 := by simpa [PyNum.eqZero] using hb
      cases a <;> simp [pyDiv, pyDivTotal, hq]

theorem computeGrowthE_ok (s e : PyNum) :
    computeGrowthE s e = .ok (computeGrowth s e) := by
  cases s with
  | nan => rfl
  | real q =>
      by_cases hq : 0 < q
      · have hz : (PyNum.real q).eqZero = false := by
          simp [PyNum.eqZero]; exact ne_of_gt hq
        simp [computeGrowthE, computeGrowth, PyNum.gtZero, hq,
              pyDiv_ok _ hz, Except.bind]
      · simp [computeGrowthE, computeGrowth, PyNum.gtZero, hq, pure, Except.pure]

theorem processTicker_okFetch (t : String) (h : List PyVal) (f : Financials) :
    processTicker { ticker := t, hist := .ok h, financials := .ok f } =
      processTickerPure t h f := by
  unfold processTicker processTickerE processTickerPure
  simp only [Except.bind, computeGrowthE_ok]
  by_cases hl : h.length < 2
  · simp [hl]
  · simp only [hl, if_false]
    by_cases hf : (f.isEmpty
        || !(f.hasIndex "Research And Development")
        || !(f.hasIndex "Selling General And Administration")) = true
    · simp [hf]
    · simp only [hf, Bool.false_eq_true, if_false]
      by_cases hs : (extract_scalar (.series (f.loc "Selling General And Administration"))).eqZero = true
      · simp [hs]
      · simp [hs, pyDiv_ok _ (Bool.not_eq_true _ ▸ hs)]

theorem processTicker_histError (inp : TickerInput) (msg : String)
    (hh : inp.hist = .error msg) : processTicker inp = .error msg := by
  unfold processTicker processTickerE
  rw [hh]
  rfl

theorem acceptedRecords_append (xs ys : List TickerInput) :
    acceptedRecords (xs ++ ys) = acceptedRecords xs ++ acceptedRecords ys := by
  unfold acceptedRecords
  exact List.filterMap_append xs ys _

theorem processTickerPure_eq (t : String) (h : List PyVal) (f : Financials) :
    processTickerPure t h f =
      if h.length < 2 then .skipPrice
      else if finMissing f then .skipFinancials
      else if (finSga f).eqZero then .skipSga
      else .ok (mkRecord t h f) := rfl

theorem processTicker_finError (t : String) (h : List PyVal) (msg : String)
    (hl : ¬ h.length < 2) :
    processTicker { ticker := t, hist := .ok h, financials := .error msg } =
      .error msg := by
  unfold processTicker processTickerE
  simp [Except.bind, hl, computeGrowthE_ok]

theorem processTicker_ok_iff (inp : TickerInput) (r : Record) :
    processTicker inp = .ok r ↔
      ∃ h f, inp.hist = .ok h ∧ inp.financials = .ok f ∧
        2 ≤ h.length ∧ finMissing f = false ∧ (finSga f).eqZero = false ∧
        r = mkRecord inp.ticker h f := by
  obtain ⟨t, histE, finE⟩ := inp
  cases histE with
  | error msg =>
      rw [processTicker_histError _ msg rfl]
      simp
  | ok h =>
      cases finE with
      | error msg =>
          by_cases hl : h.length < 2
          · constructor
            · intro hc
              unfold processTicker processTickerE at hc
              simp [Except.bind, hl] at hc
            · rintro ⟨h2, f2, hh, hf, -⟩
              exact absurd hf (by simp)
          · rw [processTicker_finError _ _ _ hl]
            simp
      | ok f =>
          rw [processTicker_okFetch, processTickerPure_eq]
          constructor
          · intro hc
            by_cases hl : h.length < 2
            · simp [hl] at hc
            · by_cases hm : finMissing f
              · simp [hl, hm] at hc
              · by_cases hz : (finSga f).eqZero
                · simp [hl, hm, hz] at hc
                · simp only [hl, if_false, hm, hz] at hc
                  exact ⟨h, f, rfl, rfl, Nat.le_of_not_lt hl,
                    Bool.not_eq_true _ ▸ (by simpa using hm),
                    Bool.not_eq_true _ ▸ (by simpa using hz),
                    (Outcome.ok.inj hc).symm⟩
          · rintro ⟨h2, f2, hh, hf, hl, hm, hz, hr⟩
            obtain rfl : h2 = h := by injection hh with e; exact e.symm
            obtain rfl : f2 = f := by injection hf with e; exact e.symm
            simp [Nat.not_lt_of_le hl, hm, hz, hr]

/-- C1: scalar extraction returns the numeric value of a bare number
unchanged, returns the first element's numeric value for a non-empty
ordered sequence, and returns 0.0 (without raising) for an empty
sequence, an unconvertible string, or an absent value. -/
theorem claim_C1 (n m : PyNum) (xs : List PyVal) :
    extract_scalar (.num n) = n
    ∧ extract_scalar (.series (.num m :: xs)) = m
    ∧ extract_scalar (.series []) = .real 0
    ∧ extract_scalar (.str none) = .real 0
    ∧ extract_scalar .pynone = .real 0 :=
  ⟨rfl, rfl, rfl, rfl, rfl⟩

/-- C2: the per-ticker pipeline rejects exactly these cases, checked in
order: fewer than two price observations (regardless of the financial
data, even a raising financials fetch); an empty statement or a missing
R&D or SG&A line item; an SG&A scalar extracting to exactly 0.0 (with no
condition on R&D).  Under successful fetches, a record is produced iff
none of the three conditions holds. -/
theorem claim_C2 :
    (∀ inp h, inp.hist = Except.ok h → h.length < 2 →
        processTicker inp = .skipPrice)
    ∧ (∀ t h f, 2 ≤ h.length → finMissing f = true →
        processTicker { ticker := t, hist := .ok h, financials := .ok f } =
          .skipFinancials)
    ∧ (∀ t h f, 2 ≤ h.length → finMissing f = false → (finSga f).eqZero = true →
        processTicker { ticker := t, hist := .ok h, financials := .ok f } =
          .skipSga)
    ∧ (∀ t h f,
        (∃ r, processTicker { ticker := t, hist := .ok h, financials := .ok f } =
            .ok r) ↔
          (2 ≤ h.length ∧ finMissing f = false ∧ (finSga f).eqZero = false)) := by
  refine ⟨?_, ?_, ?_, ?_⟩
  · intro inp h hh hl
    obtain ⟨t, histE, finE⟩ := inp
    simp only at hh
    subst hh
    unfold processTicker processTickerE
    simp [Except.bind, hl]
  · intro t h f hl hm
    rw [processTicker_okFetch, processTickerPure_eq]
    simp [Nat.not_lt_of_le hl, hm]
  · intro t h f hl hm hz
    rw [processTicker_okFetch, processTickerPure_eq]
    simp [Nat.not_lt_of_le hl, hm, hz]
  · intro t h f
    constructor
    · rintro ⟨r, hr⟩
      rw [processTicker_ok_iff] at hr
      obtain ⟨h2, f2, hh, hf, hl, hm, hz, -⟩ := hr
      obtain rfl : h2 = h := by injection hh with e; exact e.symm
      obtain rfl : f2 = f := by injection hf with e; exact e.symm
      exact ⟨hl, hm, hz⟩
    · rintro ⟨hl, hm, hz⟩
      exact ⟨mkRecord t h f,
        (processTicker_ok_iff _ _).mpr ⟨h, f, rfl, rfl, hl, hm, hz, rfl⟩⟩

/-- Witness for C2: a ticker whose price history has a single observation
is skipped for insufficient price data even though its financials fetch
would raise. -/
theorem claim_C2_witness :
    processTicker { ticker := "TEST", hist := Except.ok [PyVal.num (PyNum.real 1)],
                    financials := Except.error "boom" } = Outcome.skipPrice :=
  claim_C2.1 _ [PyVal.num (PyNum.real 1)] rfl (by decide)

/-- C4: for a ticker with at least two price observations, the growth
percentage is ((end - start) / start) * 100 when the start price is
positive, and 0 otherwise; start=100, end=120 gives 20.0; start=0 gives 0
with no division by zero; and every accepted record carries exactly this
growth value computed from its history. -/
theorem claim_C4 :
    (∀ s e : ℚ, 0 < s →
        computeGrowth (.real s) (.real e) = .real ((e - s) / s * 100))
    ∧ (∀ s e : PyNum, s.gtZero = false → computeGrowth s e = .real 0)
    ∧ computeGrowth (.real 100) (.real 120) = .real 20
    ∧ (∀ e : PyNum, computeGrowthE (.real 0) e = .ok (.real 0))
    ∧ (∀ inp h r, inp.hist = Except.ok h → processTicker inp = .ok r →
        r.market_growth = histGrowth h) := by
  refine ⟨?_, ?_, ?_, ?_, ?_⟩
  · intro s e hs
    simp [computeGrowth, PyNum.gtZero, hs, pySub, pyDivTotal, pyMul]
  · intro s e hs
    simp [computeGrowth, hs]
  · norm_num [computeGrowth, PyNum.gtZero, pySub, pyDivTotal, pyMul]
  · intro e
    have h0 : (PyNum.real 0).gtZero = false := by decide
    simp [computeGrowthE, h0, pure, Except.pure]
  · intro inp h r hh hr
    rw [processTicker_ok_iff] at hr
    obtain ⟨h2, f, hh2, -, -, -, -, rfl⟩ := hr
    rw [hh] at hh2
    obtain rfl : h2 = h := by injection hh2 with e2; exact e2.symm
    rfl

/-- Witness for C4: the formula instantiated at start=100, end=120. -/
theorem claim_C4_witness :
    computeGrowth (.real 100) (.real 120) = .real ((120 - 100) / 100 * 100) :=
  claim_C4.1 100 120 (by norm_num)

/-- C5: the ratio division is guarded by the zero-SG&A rejection: whenever
the divisor does not compare equal to 0.0 the division succeeds, the
pipeline body raises no exception once both fetches succeed, every
accepted record's ratio is exactly R&D divided by SG&A, and R&D=50 with
SG&A=200 gives 0.25. -/
theorem claim_C5 :
    (∀ rnd sga : PyNum, sga.eqZero = false →
        pyDiv rnd sga = .ok (pyDivTotal rnd sga))
    ∧ (∀ inp h f msg, inp.hist = Except.ok h → inp.financials = Except.ok f →
        processTicker inp ≠ .error msg)
    ∧ (∀ inp r, processTicker inp = .ok r →
        pyDiv r.rnd r.sga = .ok r.mirsky_ratio)
    ∧ pyDiv (.real 50) (.real 200) = .ok (.real (1/4)) := by
  refine ⟨?_, ?_, ?_, ?_⟩
  · intro rnd sga hz
    exact pyDiv_ok rnd hz
  · intro inp h f msg hh hf
    obtain ⟨t, histE, finE⟩ := inp
    simp only at hh hf
    subst hh
    subst hf
    rw [processTicker_okFetch, processTickerPure_eq]
    split
    · simp
    · split
      · simp
      · split <;> simp
  · intro inp r hr
    rw [processTicker_ok_iff] at hr
    obtain ⟨h, f, -, -, -, -, hz, rfl⟩ := hr
    exact pyDiv_ok _ hz
  · norm_num [pyDiv]

/-- Witness for C5: the guarded division at R&D=50, SG&A=200. -/
theorem claim_C5_witness :
    pyDiv (.real 50) (.real 200) = .ok (pyDivTotal (.real 50) (.real 200)) :=
  claim_C5.1 (.real 50) (.real 200) (by decide)

theorem processTicker_mkInput (t : String) (sp ep rnd sga : ℚ) (hsga : sga ≠ 0) :
    processTicker (mkInput t sp ep rnd sga) =
      .ok { ticker := t, mirsky_ratio := .real (rnd / sga),
            market_growth := computeGrowth (.real sp) (.real ep),
            rnd := .real rnd, sga := .real sga } := by
  unfold mkInput
  rw [processTicker_okFetch, processTickerPure_eq]
  simp [finMissing, Financials.isEmpty, Financials.hasIndex, finRnd, finSga,
        Financials.loc, extract_scalar, pyFloat, PyNum.eqZero, hsga, mkRecord,
        histGrowth, pyDivTotal]

theorem processTicker_nanInput (t : String) :
    processTicker (nanInput t) =
      .ok { ticker := t, mirsky_ratio := .nan,
            market_growth := computeGrowth (.real 100) (.real 120),
            rnd := .nan, sga := .nan } := by
  unfold nanInput
  rw [processTicker_okFetch, processTickerPure_eq]
  simp [finMissing, Financials.isEmpty, Financials.hasIndex, finRnd, finSga,
        Financials.loc, extract_scalar, pyFloat, PyNum.eqZero, mkRecord,
        histGrowth, pyDivTotal]

theorem run_analysis_csv_eq (inputs : List TickerInput) (rows : List Record)
    (hcsv : (run_analysis inputs).csv = some rows) :
    rows = sortValuesDesc ((acceptedRecords inputs).filter fun r => !r.hasNaN) := by
  unfold run_analysis at hcsv
  cases hres : (acceptedRecords inputs).isEmpty with
  | true => simp [hres] at hcsv
  | false =>
      simp only [hres, Bool.false_eq_true, if_false, Option.some.injEq] at hcsv
      exact hcsv.symm

theorem acceptedRecords_single :
    acceptedRecords [mkInput "A" 100 120 50 200] = [recA] := by
  simp [acceptedRecords, List.filterMap_cons,
    processTicker_mkInput "A" 100 120 50 200 (by norm_num), recA]

theorem recA_hasNaN : recA.hasNaN = false := by
  norm_num [recA, Record.hasNaN, PyNum.isNan, computeGrowth, PyNum.gtZero,
    pySub, pyDivTotal, pyMul]

theorem run_analysis_single :
    run_analysis [mkInput "A" 100 120 50 200] =
      { noData := false, csv := some [recA], stats := none } := by
  unfold run_analysis
  rw [acceptedRecords_single]
  simp [recA_hasNaN, sortValuesDesc]

/-- C6: whenever the CSV has been written, the Pearson statistic is
computed precisely when strictly more than 2 rows survived the dropna
re-filter; otherwise the test is skipped (with the CSV still on disk);
when computed, its sample size is the row count and its input pairs are
the ratio and growth columns. -/
theorem claim_C6 (inputs : List TickerInput) (rows : List Record)
    (hcsv : (run_analysis inputs).csv = some rows) :
    ((run_analysis inputs).stats.isSome ↔ 2 < rows.length)
    ∧ (∀ st, (run_analysis inputs).stats = some st →
        st.n = rows.length
        ∧ st.pairs = rows.map fun r => (r.mirsky_ratio, r.market_growth)) := by
  have hrows := run_analysis_csv_eq inputs rows hcsv
  have hne : (acceptedRecords inputs).isEmpty = false := by
    cases hres : (acceptedRecords inputs).isEmpty with
    | false => rfl
    | true =>
        unfold run_analysis at hcsv
        simp [hres] at hcsv
  unfold run_analysis
  simp only [hne, Bool.false_eq_true, if_false]
  rw [← hrows]
  by_cases hlen : 2 < rows.length
  · simp [hlen]
  · simp [hlen]

/-- Witness for C6: the single-record run writes its CSV and skips the
statistic, as 1 is not greater than 2. -/
theorem claim_C6_witness :
    ((run_analysis [mkInput "A" 100 120 50 200]).stats.isSome ↔
      2 < [recA].length) :=
  (claim_C6 [mkInput "A" 100 120 50 200] [recA]
    (by rw [run_analysis_single])).1

/-- C7: a run in which no ticker is accepted reports no data, writes no
CSV and computes no statistics (and, being a total function, terminates
without crashing). -/
theorem claim_C7 (inputs : List TickerInput)
    (h : acceptedRecords inputs = []) :
    run_analysis inputs = { noData := true, csv := none, stats := none } := by
  unfold run_analysis
  simp [h]

/-- Witness for C7: the empty run collects nothing. -/
theorem claim_C7_witness :
    run_analysis [] = { noData := true, csv := none, stats := none } :=
  claim_C7 [] rfl

/-- C8: an exception during a ticker's price fetch or financials fetch is
caught at the per-ticker boundary and becomes a logged error outcome, and
such a failing ticker is fully isolated: the accepted records of the run
are exactly those of the tickers before and after it, unchanged. -/
theorem claim_C8 :
    (∀ inp msg, inp.hist = Except.error msg → processTicker inp = .error msg)
    ∧ (∀ t h msg, ¬ h.length < 2 →
        processTicker { ticker := t, hist := .ok h, financials := .error msg } =
          .error msg)
    ∧ (∀ pre post bad msg, processTicker bad = .error msg →
        acceptedRecords (pre ++ bad :: post) =
          acceptedRecords pre ++ acceptedRecords post) := by
  refine ⟨?_, ?_, ?_⟩
  · intro inp msg hh
    exact processTicker_histError inp msg hh
  · intro t h msg hl
    exact processTicker_finError t h msg hl
  · intro pre post bad msg hbad
    rw [acceptedRecords_append]
    congr 1
    unfold acceptedRecords
    rw [List.filterMap_cons]
    simp [hbad]

/-- Witness for C8: a raising ticker between two healthy ones leaves the
neighbours' accepted records untouched. -/
theorem claim_C8_witness :
    acceptedRecords
        ([mkInput "A" 100 120 50 200] ++
          { ticker := "X", hist := Except.error "network down",
            financials := Except.error "network down" } ::
          [mkInput "B" 100 110 30 150]) =
      acceptedRecords [mkInput "A" 100 120 50 200] ++
        acceptedRecords [mkInput "B" 100 110 30 150] :=
  claim_C8.2.2 [mkInput "A" 100 120 50 200] [mkInput "B" 100 110 30 150] _
    "network down" (claim_C8.1 _ "network down" rfl)

/-- C9: a floating-point NaN converts successfully, so scalar extraction
returns NaN rather than 0.0; a record whose extracted values are NaN
passes every per-ticker filter (NaN does not compare equal to 0.0) but is
removed by the aggregation-stage dropna, so every CSV row and every pair
fed to the correlation is free of missing values. -/
theorem claim_C9 :
    extract_scalar (.num .nan) = .nan
    ∧ (∃ r, processTicker (nanInput "NAN") = .ok r ∧ r.hasNaN = true)
    ∧ (∀ inputs rows r, (run_analysis inputs).csv = some rows → r ∈ rows →
        r.hasNaN = false)
    ∧ (∀ inputs st p, (run_analysis inputs).stats = some st → p ∈ st.pairs →
        p.1.isNan = false ∧ p.2.isNan = false)
    ∧ run_analysis [nanInput "NAN"] =
        { noData := false, csv := some [], stats := none } := by
  refine ⟨rfl, ?_, ?_, ?_, ?_⟩
  · exact ⟨_, processTicker_nanInput "NAN", by simp [Record.hasNaN, PyNum.isNan]⟩
  · intro inputs rows r hcsv hr
    have hrows := run_analysis_csv_eq inputs rows hcsv
    subst hrows
    rw [sortValuesDesc, List.mem_mergeSort, List.mem_filter] at hr
    simpa using hr.2
  · intro inputs st p hst hp
    have hne : (acceptedRecords inputs).isEmpty = false := by
      cases hres : (acceptedRecords inputs).isEmpty with
      | false => rfl
      | true => unfold run_analysis at hst; simp [hres] at hst
    unfold run_analysis at hst
    simp only [hne, Bool.false_eq_true, if_false] at hst
    by_cases hlen : 2 <
        (sortValuesDesc ((acceptedRecords inputs).filter fun r => !r.hasNaN)).length
    · simp only [hlen, if_true, Option.some.injEq] at hst
      subst hst
      simp only [List.mem_map] at hp
      obtain ⟨r, hrmem, rfl⟩ := hp
      rw [sortValuesDesc, List.mem_mergeSort, List.mem_filter] at hrmem
      have hnn : r.hasNaN = false := by simpa using hrmem.2
      simp only [Record.hasNaN, Bool.or_eq_false_iff] at hnn
      exact ⟨hnn.1.1.1, hnn.1.1.2⟩
    · simp [hlen] at hst
  · unfold run_analysis
    have hacc : acceptedRecords [nanInput "NAN"] =
        [{ ticker := "NAN", mirsky_ratio := .nan,
           market_growth := computeGrowth (.real 100) (.real 120),
           rnd := .nan, sga := .nan }] := by
      simp [acceptedRecords, List.filterMap_cons, processTicker_nanInput]
    rw [hacc]
    simp [Record.hasNaN, PyNum.isNan, sortValuesDesc]

/-- C10: once the two-observation price check passes, the quality of the
individual price values never causes rejection: acceptance depends only
on the financial-statement conditions, an unconvertible closing price
extracts to 0.0, and a record whose first price is unconvertible is
accepted with growth 0. -/
theorem claim_C10 :
    (∀ t h f, 2 ≤ h.length → finMissing f = false → (finSga f).eqZero = false →
        processTicker { ticker := t, hist := .ok h, financials := .ok f } =
          .ok (mkRecord t h f))
    ∧ extract_scalar (.str none) = .real 0
    ∧ (∀ rest : List PyVal, ∀ inp r, inp.hist = Except.ok (.str none :: rest) →
        processTicker inp = .ok r → r.market_growth = .real 0) := by
  refine ⟨?_, rfl, ?_⟩
  · intro t h f hl hm hz
    exact (processTicker_ok_iff _ _).mpr ⟨h, f, rfl, rfl, hl, hm, hz, rfl⟩
  · intro rest inp r hh hr
    rw [processTicker_ok_iff] at hr
    obtain ⟨h2, f, hh2, -, -, -, -, rfl⟩ := hr
    rw [hh] at hh2
    obtain rfl : h2 = PyVal.str none :: rest := by injection hh2 with e; exact e.symm
    show histGrowth (PyVal.str none :: rest) = .real 0
    norm_num [histGrowth, extract_scalar, pyFloat, computeGrowth, PyNum.gtZero]

/-- Witness for C10: both closing prices unconvertible strings, yet the
ticker is accepted. -/
theorem claim_C10_witness :
    processTicker { ticker := "U", hist := Except.ok [PyVal.str none, PyVal.str none],
                    financials := Except.ok goodFin } =
      .ok (mkRecord "U" [PyVal.str none, PyVal.str none] goodFin) :=
  claim_C10.1 "U" [PyVal.str none, PyVal.str none] goodFin (by simp)
    (by simp [goodFin, finMissing, Financials.isEmpty, Financials.hasIndex])
    (by decide)

/-- Witness for C9: the single CSV row of the one-accepted-record run is
NaN-free. -/
theorem claim_C9_witness : recA.hasNaN = false :=
  claim_C9.2.2.1 [mkInput "A" 100 120 50 200] [recA] recA
    (by rw [run_analysis_single]) (by simp)
